import Mathlib

/-!
Verification of the verpy dependency resolver: a shallow embedding of
`verpy/version/types.py` (version ordering, hashing and the version-set
algebra) and `verpy/solver5.py` (the clause-driven backtracking solver),
with theorems settling the fixed list of claims about the specification.

Machine integers do not occur (Python integers are unbounded); numbers are
modelled as `Nat`/`Int`.  Python exceptions are modelled by `Except` with an
explicit error type.  Python `hash` of a tuple is modelled by the tuple
itself (two values hash equal iff their normalized representations are equal
as data).
-/

namespace Verpy

/-! ## Version components (`types.py`, classes `NumericComponent`,
`StringComponent`, `NullComponent`)

`NumericComponent` keeps the list of integers of a dotted numeric run;
`StringComponent` keeps the raw token; `NullComponent` is the padding value
appended by `compare_versions` for missing components. -/

inductive Component where
  | NumericComponent (items : List Nat)
  | StringComponent (item : String)
  | NullComponent
  deriving DecidableEq, BEq, Repr

/-- The qualifier ordering table `string_version_orderings` of `types.py`. -/
def string_version_orderings : List (String × Nat) :=
  [("alpha", 0), ("a", 0), ("beta", 1), ("b", 1), ("milestone", 2), ("m", 2),
   ("rc", 3), ("cr", 3), ("c", 3), ("", 4), ("snapshot", 5), ("dev", 5),
   ("final", 6), ("ga", 6), ("post", 7), ("sp", 7)]

/-- Rank lookup in the qualifier table (`token in string_version_orderings` /
`string_version_orderings[token]`). -/
def qual_rank (s : String) : Option Nat :=
  (string_version_orderings.find? (fun p => p.1 == s)).map (·.2)

/-- Python `str.lower()` on the ASCII tokens occurring here. -/
def py_lower_char (c : Char) : Char :=
  if 65 ≤ c.toNat ∧ c.toNat ≤ 90 then Char.ofNat (c.toNat + 32) else c

/-- Python `str.lower()` (ASCII range). -/
def py_lower (s : String) : String := ⟨s.data.map py_lower_char⟩

/-- Lexicographic comparison of character lists by code point. -/
def chars_lt : List Char → List Char → Bool
  | [], [] => false
  | [], _ :: _ => true
  | _ :: _, [] => false
  | c :: cs, d :: ds =>
      if c.toNat < d.toNat then true
      else if d.toNat < c.toNat then false
      else chars_lt cs ds

/-- Python `<` on strings: lexicographic by code point. -/
def py_str_lt (a b : String) : Bool := chars_lt a.data b.data

/-- The integer constants `GREATER = 1`, `LESSER = -1`, `EQUAL = 0`. -/
def GREATER : Int := 1
def LESSER : Int := -1
def EQUAL : Int := 0

/-- `compare_component_with_null` of `types.py`: a numeric component is
greater than null; an alphabetic token is ordered by its table rank relative
to the rank of `""` (4), and an out-of-table token is less than null.
The source raises `Exception("Internal Error.")` when given a
`NullComponent`; that call never happens because `compare_versions` pads
only the shorter side, so at most one side of a comparison is null; the
branch is given the value 0 here. -/
def compare_component_with_null : Component → Int
  | .NumericComponent _ => GREATER
  | .StringComponent s =>
      match qual_rank (py_lower s) with
      | some r => if r > 4 then GREATER else if r < 4 then LESSER else EQUAL
      | none => LESSER
  | .NullComponent => 0

/-- Element-wise comparison of two equal-length lists of integers
(the `for a_item, b_item in zip(...)` loop of the numeric/numeric branch). -/
def cmp_items : List Nat → List Nat → Int
  | [], [] => EQUAL
  | x :: xs, y :: ys =>
      if x > y then GREATER else if x < y then LESSER else cmp_items xs ys
  | _, _ => EQUAL

/-- The numeric/numeric branch of `compare_version_components`: both item
lists are zero-padded to equal length and compared element-wise. -/
def cmp_numeric (a b : List Nat) : Int :=
  let l := max a.length b.length
  cmp_items (a ++ List.replicate (l - a.length) 0)
            (b ++ List.replicate (l - b.length) 0)

/-- The alphabetic/alphabetic branch of `compare_version_components`:
both tokens are lower-cased; if both are in the qualifier table they are
ordered by rank (equal ranks fall through to `return EQUAL`); if exactly one
is in the table, the in-table token is GREATER; otherwise the tokens are
compared lexicographically. -/
def cmp_strings (a b : String) : Int :=
  let al := py_lower a
  let bl := py_lower b
  match qual_rank al, qual_rank bl with
  | some ra, some rb => if ra > rb then GREATER else if ra < rb then LESSER else EQUAL
  | some _, none => GREATER
  | none, some _ => LESSER
  | none, none =>
      if py_str_lt bl al then GREATER
      else if py_str_lt al bl then LESSER
      else EQUAL

/-- `compare_version_components` of `types.py`. -/
def compare_version_components : Component → Component → Int
  | .NullComponent, b => -1 * compare_component_with_null b
  | a, .NullComponent => compare_component_with_null a
  | .NumericComponent _, .StringComponent _ => GREATER
  | .StringComponent _, .NumericComponent _ => LESSER
  | .NumericComponent a, .NumericComponent b => cmp_numeric a b
  | .StringComponent a, .StringComponent b => cmp_strings a b

/-- Left-to-right comparison of two equal-length (padded) component lists:
the first nonzero component comparison decides; otherwise EQUAL. -/
def cmp_component_lists : List Component → List Component → Int
  | [], [] => EQUAL
  | a :: as_, b :: bs =>
      let c := compare_version_components a b
      if c ≠ 0 then c else cmp_component_lists as_ bs
  | _, _ => EQUAL

/-- Padding of a component list with `NullComponent`s up to length `l`
(the two `while len(...) < l: ....append(NullComponent())` loops). -/
def pad_components (cs : List Component) (l : Nat) : List Component :=
  cs ++ List.replicate (l - cs.length) Component.NullComponent

/-- `compare_versions` of `types.py`, with its in-place effect made
explicit: the source appends `NullComponent()`s to the shorter of the two
`components` lists it is given (mutating the corresponding `Version`
object) and then compares position-wise.  The result records the comparison
outcome together with the two component lists as they are left after the
call. -/
def compare_versions_m (a b : List Component) :
    Int × List Component × List Component :=
  let l := max a.length b.length
  let a2 := pad_components a l
  let b2 := pad_components b l
  (cmp_component_lists a2 b2, a2, b2)

/-- The comparison outcome of `compare_versions`. -/
def compare_versions (a b : List Component) : Int :=
  (compare_versions_m a b).1

/-! ## Versions and hashing -/

/-- `types.Version`: a list of components plus the optional original string
(used by `__str__`). -/
structure Version where
  components : List Component
  original_string : Option String
  deriving DecidableEq, BEq, Repr

/-- A normalized component representation, as produced by
`normalized_representation` (used by `Version.__hash__`). -/
inductive NormItem where
  | numRep (items : List Nat)
  | strRep (s : String)
  deriving DecidableEq, BEq, Repr

/-- `normalized_representation`: a numeric component keeps its leading
nonzero items (the loop breaks at the first 0); an alphabetic component
keeps its lower-cased token.  `NullComponent` has no such method, so
invoking it raises `AttributeError`: modelled as `none`. -/
def normalized_representation : Component → Option NormItem
  | .NumericComponent items => some (.numRep (items.takeWhile (· != 0)))
  | .StringComponent s => some (.strRep (py_lower s))
  | .NullComponent => none

/-- The tuple of normalized representations of a component list; `none`
when some component (a `NullComponent`) has no normalized representation,
in which case Python raises `AttributeError`. -/
def comps_hash : List Component → Option (List NormItem)
  | [] => some []
  | c :: cs =>
      match normalized_representation c, comps_hash cs with
      | some n, some ns => some (n :: ns)
      | _, _ => none

/-- `Version.__hash__`: the hash of the tuple of the components' normalized
representations, modelled by that tuple itself. -/
def version_hash (v : Version) : Option (List NormItem) :=
  comps_hash v.components

/-! ## Assignment versions

In `solver5.py` an assignment's `version` is either a parsed `Version`, the
sentinel `Version("none")`, or — for the `RootAssignment` — the plain
Python string `"1.0"`.  The sentinel is modelled as the parsed version with
the single alphabetic component `"none"` (the string-accepting `Version`
constructor of `versioning.py` / `parse_version("none")`; `types.Version`
itself would store the raw string, on which every comparison raises, so the
parsed form is the reading under which the solver runs at all). -/

inductive AssignVersion where
  | pyStr (s : String)
  | ver (v : Version)
  deriving DecidableEq, BEq, Repr

/-- The Null sentinel `verpy.Version("none")`. -/
def ver_none : Version := ⟨[.StringComponent "none"], none⟩

/-- Python `==` between two assignment versions: strings compare by string
equality; two `Version`s by `compare_versions(...) == 0`; a string and a
`Version` are unequal (`__eq__` returns `NotImplemented` on both sides and
Python falls back to identity). -/
def av_eq : AssignVersion → AssignVersion → Bool
  | .pyStr a, .pyStr b => a == b
  | .ver a, .ver b => compare_versions a.components b.components == 0
  | _, _ => false

/-- Python `!=` between assignment versions (negation of `av_eq`). -/
def av_ne (a b : AssignVersion) : Bool := !(av_eq a b)

/-- The guard `assignment.version != verpy.Version("none")` used by
`load_dependencies` and `get_current_solution`. -/
def av_ne_none : AssignVersion → Bool
  | .pyStr _ => true
  | .ver v => compare_versions v.components ver_none.components != 0

/-- Python ordered comparison `x >= w` between assignment versions.  Both
sides are `Version`s in every reachable call (an ordered mixed comparison
would raise `TypeError` in Python; such a call never occurs because ordered
specifiers are only built from parsed versions). -/
def av_ge : AssignVersion → AssignVersion → Bool
  | .ver x, .ver w => compare_versions x.components w.components ≥ 0
  | _, _ => false

/-- Python `x <= w` on assignment versions (see `av_ge`). -/
def av_le : AssignVersion → AssignVersion → Bool
  | .ver x, .ver w => compare_versions x.components w.components ≤ 0
  | _, _ => false

/-- Python `x > w` on assignment versions (see `av_ge`). -/
def av_gt : AssignVersion → AssignVersion → Bool
  | .ver x, .ver w => compare_versions x.components w.components > 0
  | _, _ => false

/-- Python `x < w` on assignment versions (see `av_ge`). -/
def av_lt : AssignVersion → AssignVersion → Bool
  | .ver x, .ver w => compare_versions x.components w.components < 0
  | _, _ => false

/-! ## Version sets (`types.py`, `VersionSet` and its subclasses)

`AndOperator`/`OrOperator` take a variable number of children in the
source; the solver and the scenario inputs only ever build them with two,
so they are binary here. -/

inductive VersionSet where
  | EmptySpecifier
  | AnySpecifier
  | EqSpecifier (version : AssignVersion)
  | NotEqSpecifier (version : AssignVersion)
  | GtEqSpecifier (version : AssignVersion)
  | LtEqSpecifier (version : AssignVersion)
  | GtSpecifier (version : AssignVersion)
  | LtSpecifier (version : AssignVersion)
  | AndOperator (a b : VersionSet)
  | OrOperator (a b : VersionSet)
  | NotOperator (specifier : VersionSet)
  deriving DecidableEq, BEq, Repr

/-- `contains` as implemented by each `VersionSet` subclass. -/
def VersionSet.contains : VersionSet → AssignVersion → Bool
  | .EmptySpecifier, _ => false
  | .AnySpecifier, _ => true
  | .EqSpecifier w, x => av_eq w x
  | .NotEqSpecifier w, x => !(av_eq w x)
  | .GtEqSpecifier w, x => av_ge x w
  | .LtEqSpecifier w, x => av_le x w
  | .GtSpecifier w, x => av_gt x w
  | .LtSpecifier w, x => av_lt x w
  | .AndOperator a b, x => a.contains x && b.contains x
  | .OrOperator a b, x => a.contains x || b.contains x
  | .NotOperator s, x => !(s.contains x)

/-- `VersionSet.intersection`: `AndOperator(self, specifier)`. -/
def VersionSet.intersection (a b : VersionSet) : VersionSet := .AndOperator a b

/-- `VersionSet.union`: `OrOperator(self, specifier)`. -/
def VersionSet.union (a b : VersionSet) : VersionSet := .OrOperator a b

/-- `VersionSet.complement`: `NotOperator(self)`. -/
def VersionSet.complement (a : VersionSet) : VersionSet := .NotOperator a

/-- `VersionSet.difference` of `types.py`:
`self.intersection(specifier).complement()` — the complement of the
intersection. -/
def VersionSet.difference (a b : VersionSet) : VersionSet :=
  (a.intersection b).complement

/-! ## Requirements, assignments, terms and clauses (`solver5.py`) -/

/-- `types.Requirement`: a package name with an allowed version set. -/
structure Requirement where
  package_name : String
  version_set : VersionSet
  deriving DecidableEq, BEq, Repr

/-- `solver5.Assignment`.  `is_root` distinguishes the `RootAssignment`
subclass (`isinstance(assignment, RootAssignment)` checks). -/
structure Assignment where
  package_name : String
  version : AssignVersion
  is_root : Bool
  deriving DecidableEq, BEq, Repr

/-- `RootAssignment()`: package `"__root__"` with the plain Python string
`"1.0"` as its version. -/
def root_assignment : Assignment := ⟨"__root__", .pyStr "1.0", true⟩

/-- `Assignment.__eq__`, which compares
`hash(("Assignment", package_name, version))`: equal names and equal
version hashes.  A string version hashes as the string, a `Version` as its
normalized-representation tuple; the two kinds never hash equal. -/
def assignment_hash_eq (a b : Assignment) : Bool :=
  a.package_name == b.package_name &&
    (match a.version, b.version with
     | .pyStr s, .pyStr t => s == t
     | .ver v, .ver w => version_hash v == version_hash w
     | _, _ => false)

/-- `Assignment.as_requirement()`: `Requirement(name, VersionSet.eq(version))`. -/
def Assignment.as_requirement (a : Assignment) : Requirement :=
  ⟨a.package_name, .EqSpecifier a.version⟩

/-- `Assignment.as_complement_requirement()`:
`Requirement(name, VersionSet.eq(version).complement())`. -/
def Assignment.as_complement_requirement (a : Assignment) : Requirement :=
  ⟨a.package_name, .NotOperator (.EqSpecifier a.version)⟩

/-- `solver5.Term`: a wrapper around a requirement (its `package_name` and
`version_set` properties delegate to the requirement). -/
structure Term where
  requirement : Requirement
  deriving DecidableEq, BEq, Repr

/-- `Term.truth_value`: the first assignment for the term's package decides
(`assignment.version in self.version_set`); `None` if the package has no
assignment. -/
def Term.truth_value (t : Term) (assignments : List Assignment) : Option Bool :=
  match assignments.find? (fun a => a.package_name == t.requirement.package_name) with
  | some a => some (t.requirement.version_set.contains a.version)
  | none => none

/-- The `cause` of a clause; the `Dependency` subclass carries its
originating assignment and requirement (`dependant`, `dependency`). -/
inductive Cause where
  | noCause
  | DependencyCause (dependant : Assignment) (dependency : Requirement)
  | IncompatibilityCause
  deriving DecidableEq, BEq, Repr

/-- `solver5.Clause`: a disjunction of terms with a cause. -/
structure Clause where
  terms : List Term
  cause : Cause
  deriving DecidableEq, BEq, Repr

/-- `Clause.truth_value`: `True` if any term is true, else `None` if any
term is `None`, else `False`. -/
def Clause.truth_value (c : Clause) (assignments : List Assignment) : Option Bool :=
  let tvs := c.terms.map (fun t => t.truth_value assignments)
  if tvs.contains (some true) then some true
  else if tvs.contains none then none
  else some false

/-- `Clause.get_package_names`: the terms' package names in first-occurrence
order, without duplicates. -/
def Clause.get_package_names (c : Clause) : List String :=
  c.terms.foldl
    (fun acc t =>
      if acc.contains t.requirement.package_name then acc
      else acc ++ [t.requirement.package_name]) []

/-- `Dependency(dependant, dependency)`:
`[Term(dependant.as_complement_requirement()), Term(dependency)]` with a
`DependencyCause` recording both. -/
def Dependency (dependant : Assignment) (dependency : Requirement) : Clause :=
  ⟨[⟨dependant.as_complement_requirement⟩, ⟨dependency⟩],
   .DependencyCause dependant dependency⟩

/-- `Incompatibility(terms)`. -/
def Incompatibility (terms : List Term) : Clause :=
  ⟨terms, .IncompatibilityCause⟩

/-! ## Repository and search state -/

/-- The `Repository` interface, with `DictRepository`'s partiality made
explicit: `none` models the `KeyError` a missing package raises.
`get_versions` returns the versions sorted descending
(`sorted(..., reverse=True)`); `get_dependencies` looks the version up by
version equality. -/
structure Repo where
  get_versions : String → Option (List Version)
  get_dependencies : String → Version → Option (List Requirement)

/-- Decidable equality for `Except` results (used to evaluate concrete
runs). -/
instance instDecEqExcept {e a : Type} [DecidableEq e] [DecidableEq a] :
    DecidableEq (Except e a) := fun x y =>
  match x, y with
  | .ok v, .ok w =>
      if h : v = w then .isTrue (by rw [h])
      else .isFalse (fun hh => by cases hh; exact h rfl)
  | .error v, .error w =>
      if h : v = w then .isTrue (by rw [h])
      else .isFalse (fun hh => by cases hh; exact h rfl)
  | .ok _, .error _ => .isFalse (fun hh => by cases hh)
  | .error _, .ok _ => .isFalse (fun hh => by cases hh)

/-- The Python exceptions a run can surface.  `solverError` models the
`SolverError` class defined at the top of `solver5.py`; no statement in the
module raises it.  `fuelExhausted` is an artifact of the bounded loop model
and never occurs at sufficient fuel. -/
inductive RunErr where
  | keyError (key : String)
  | valueError
  | indexError
  | assertionError
  | recursionError
  | solverError
  | fuelExhausted
  deriving DecidableEq, BEq, Repr

/-- `solver5.SearchState`: the clause list, the assignment list and the
`assignment_memory` memo of assignments whose dependencies were loaded. -/
structure State where
  clauses : List Clause
  assignments : List Assignment
  assignment_memory : List Assignment
  deriving DecidableEq, BEq, Repr

/-- `SearchState.get_assignment`: the first assignment for the package. -/
def get_assignment (st : State) (package_name : String) : Option Assignment :=
  st.assignments.find? (fun a => a.package_name == package_name)

/-- `SearchState.has_assignment`. -/
def has_assignment (st : State) (package_name : String) : Bool :=
  (get_assignment st package_name).isSome

/-- `SearchState.load_dependencies`: if the version is not the Null
sentinel and the assignment is not in the memo (membership via
`Assignment.__eq__`), record it and append one `Dependency` clause per
requirement returned by the repository. -/
def load_dependencies (repo : Repo) (st : State) (a : Assignment) :
    Except RunErr State :=
  if av_ne_none a.version &&
     !(st.assignment_memory.any (fun m => assignment_hash_eq m a)) then
    match a.version with
    | .ver v =>
        match repo.get_dependencies a.package_name v with
        | none => .error (.keyError a.package_name)
        | some deps =>
            .ok { st with
                  assignment_memory := st.assignment_memory ++ [a],
                  clauses := st.clauses ++ deps.map (fun r => Dependency a r) }
    | .pyStr _ =>
        -- only the root assignment carries a string version and it is never
        -- loaded; a repository lookup with it would raise KeyError
        .error (.keyError a.package_name)
  else .ok st

/-- `SearchState.solution_is_complete`: every clause evaluates `True`
(`all(...)` — `None` and `False` are both falsy). -/
def solution_is_complete (st : State) : Bool :=
  st.clauses.all (fun c => c.truth_value st.assignments == some true)

/-- `SearchState.get_all_clauses_involving_package`. -/
def get_all_clauses_involving_package (st : State) (package_name : String) :
    List Clause :=
  st.clauses.filter (fun c => c.get_package_names.contains package_name)

/-- `SearchState.get_dependants`: the dependants of `Dependency` clauses
targeting the assignment's package, when that dependant is itself in the
assignment list (membership via `Assignment.__eq__`). -/
def get_dependants (st : State) (a : Assignment) : List Assignment :=
  st.clauses.foldl
    (fun acc c =>
      match c.cause with
      | .DependencyCause dependant dependency =>
          if dependency.package_name == a.package_name &&
             st.assignments.any (fun x => assignment_hash_eq x dependant) then
            acc ++ [dependant]
          else acc
      | _ => acc) []

/-- The test `clause.dependency in self.assignments` of
`get_dependencies_assignments`: Python compares the `Requirement` object
against `Assignment`s via `Assignment.__eq__`, i.e. equality of
`hash(("Assignment", name, version))` with the requirement's default
identity hash; these never coincide, so the test is always false. -/
def requirement_eq_assignment (_r : Requirement) (_a : Assignment) : Bool :=
  false

/-- `SearchState.get_dependencies_assignments`: `Dependency` clauses whose
`dependant` equals the assignment and whose `dependency` passes the
(always-false) membership test; the collected value is `clause.dependant`.
The result is therefore always empty. -/
def get_dependencies_assignments (st : State) (a : Assignment) : List Assignment :=
  st.clauses.foldl
    (fun acc c =>
      match c.cause with
      | .DependencyCause dependant dependency =>
          if assignment_hash_eq dependant a &&
             st.assignments.any (fun x => requirement_eq_assignment dependency x) then
            acc ++ [dependant]
          else acc
      | _ => acc) []

/-- `list.remove`: drop the first element equal (via `Assignment.__eq__`)
to the given one.  The `ValueError` Python raises when the element is
missing cannot occur at the call sites (the removed assignment was found in
the list). -/
def remove_first : List Assignment → Assignment → List Assignment
  | [], _ => []
  | x :: xs, a => if assignment_hash_eq x a then xs else x :: remove_first xs a

/-- `SearchState.backtrack`: recursively backtrack the assignments returned
by `get_dependencies_assignments` (a list that is always empty, see above),
then remove the given assignment.  There is no guard for the root
assignment.  The recursion is bounded by explicit fuel; fuel 0 is
unreachable because the cascade list is empty. -/
def backtrack_fuel : Nat → State → Assignment → State
  | 0, st, _ => st
  | fuel + 1, st, a =>
      let st1 := (get_dependencies_assignments st a).foldl
        (fun s d => backtrack_fuel fuel s d) st
      { st1 with assignments := remove_first st1.assignments a }

/-- `SearchState.backtrack` at its call sites. -/
def backtrack (st : State) (a : Assignment) : State :=
  backtrack_fuel (st.assignments.length + 1) st a

/-- `SearchState.get_assignment_depth`: 0 for the root; otherwise one plus
the minimum depth over `get_dependants`.  `min([])` raises `ValueError`;
deep or cyclic dependant chains exhaust the recursion (Python
`RecursionError`), bounded here by fuel. -/
def get_assignment_depth (st : State) : Nat → Assignment → Except RunErr Nat
  | 0, _ => .error .recursionError
  | fuel + 1, a =>
      if a.is_root then .ok 0
      else
        match (get_dependants st a).mapM (fun d => get_assignment_depth st fuel d) with
        | .error e => .error e
        | .ok ds =>
            match ds.map (· + 1) with
            | [] => .error .valueError
            | x :: xs => .ok (xs.foldl Nat.min x)

/-- The scan of `get_deepest_assignment_involving`: track the deepest
assignment seen so far, updating on `depth >= max_depth` (so the last
maximal assignment wins); `max_depth` starts at `-1`. -/
def deepest_scan (st : State) (package_names : List String) :
    List Assignment → Int → Option Assignment → Except RunErr (Option Assignment)
  | [], _, best => .ok best
  | a :: rest, maxd, best =>
      if package_names.contains a.package_name then
        match get_assignment_depth st (st.assignments.length + 1) a with
        | .error e => .error e
        | .ok d =>
            if (d : Int) ≥ maxd then deepest_scan st package_names rest (d : Int) (some a)
            else deepest_scan st package_names rest maxd best
      else deepest_scan st package_names rest maxd best

/-- `SearchState.get_deepest_assignment_involving`. -/
def get_deepest_assignment_involving (st : State) (package_names : List String) :
    Except RunErr (Option Assignment) :=
  deepest_scan st package_names st.assignments (-1) none

/-- `SearchState.get_unassigned_packages`: scan all clauses, collecting (in
first-occurrence order) package names without an assignment. -/
def get_unassigned_packages (st : State) : List String :=
  st.clauses.foldl
    (fun acc c =>
      c.get_package_names.foldl
        (fun ac p =>
          if !(has_assignment st p) && !(ac.contains p) then ac ++ [p] else ac)
        acc) []

/-- `SearchState.get_current_solution`: the non-root, non-Null assignments
as `(package, str(version))` pairs in assignment order (`str` returns the
original string of a parsed version). -/
def get_current_solution (st : State) : List (String × String) :=
  st.assignments.foldl
    (fun acc a =>
      if !a.is_root && av_ne_none a.version then
        acc ++ [(a.package_name,
                 match a.version with
                 | .pyStr s => s
                 | .ver v => v.original_string.getD "")]
      else acc) []

/-- `SearchState.add_root_dependencies`: the clause forcing the root
package to stay selected, the root assignment, and one `Dependency` per
root requirement. -/
def add_root_dependencies (requirements : List Requirement) : State :=
  { clauses := ⟨[⟨root_assignment.as_requirement⟩], .noCause⟩ ::
        requirements.map (fun r => Dependency root_assignment r),
    assignments := [root_assignment],
    assignment_memory := [] }

/-- `SearchState.add_assignment`: assert the package is unassigned, append
the assignment, then load its dependencies. -/
def add_assignment (repo : Repo) (st : State) (a : Assignment) :
    Except RunErr State :=
  if has_assignment st a.package_name then .error .assertionError
  else load_dependencies repo { st with assignments := st.assignments ++ [a] } a

/-! ## The solver loop (`solve_dependencies` and `_try_assignment`) -/

/-- `_try_assignment`: load the trial assignment's dependencies, then
collect the clauses involving its package that evaluate `False` when the
trial assignment replaces any existing assignment for that package. -/
def try_assignment (repo : Repo) (st : State) (a : Assignment) :
    Except RunErr (State × List Clause) :=
  match load_dependencies repo st a with
  | .error e => .error e
  | .ok st1 =>
      let relevant := get_all_clauses_involving_package st1 a.package_name
      let assignments_to_use :=
        a :: st1.assignments.filter (fun x => x.package_name != a.package_name)
      .ok (st1, relevant.filter
        (fun c => c.truth_value assignments_to_use == some false))

/-- The `for clause in violated_clauses: if clause not in all_violated_clauses`
accumulation (clause identity stands in for Python object identity; all
clauses arising in the runs below are pairwise distinct as data). -/
def merge_violated (acc violated : List Clause) : List Clause :=
  violated.foldl (fun ac c => if ac.contains c then ac else ac ++ [c]) acc

/-- The `for version in [verpy.Version("none"), *all_versions]` loop of
`solve_dependencies`: try each candidate in order, accumulating violated
clauses, stopping at the first candidate with no violations. -/
def candidate_loop (repo : Repo) (package_name : String) :
    State → List Clause → List AssignVersion →
    Except RunErr (State × List Clause × Option AssignVersion)
  | st, acc, [] => .ok (st, acc, none)
  | st, acc, w :: rest =>
      match try_assignment repo st ⟨package_name, w, false⟩ with
      | .error e => .error e
      | .ok (st1, violated) =>
          if violated.isEmpty then .ok (st1, acc, some w)
          else candidate_loop repo package_name st1 (merge_violated acc violated) rest

/-- One iteration of the `while not state.solution_is_complete()` body of
`solve_dependencies`.  `get_unassigned_packages()[0]` on an empty list is an
`IndexError`; a missing repository package is a `KeyError`.  When no
candidate fits, the learned incompatibility's terms are all terms of the
violated clauses except those naming the focus package (no merging), and
the deepest assignment involving the incompatibility's packages is
backtracked (`backtrack(None)` would raise, modelled as `valueError`).
Otherwise the chosen version is assigned; the `elif state.has_assignment`
branch of the source is unreachable because the package was picked from the
unassigned ones and trials do not assign. -/
def step_body (repo : Repo) (st : State) : Except RunErr State :=
  match (get_unassigned_packages st).head? with
  | none => .error .indexError
  | some package_name =>
      match repo.get_versions package_name with
      | none => .error (.keyError package_name)
      | some all_versions =>
          match candidate_loop repo package_name st []
              (.ver ver_none :: all_versions.map .ver) with
          | .error e => .error e
          | .ok (st1, all_violated, none) =>
              let incompatibility := Incompatibility
                (all_violated.foldl
                  (fun ts c =>
                    ts ++ c.terms.filter
                      (fun t => t.requirement.package_name != package_name)) [])
              let st2 := { st1 with clauses := st1.clauses ++ [incompatibility] }
              match get_deepest_assignment_involving st2
                  incompatibility.get_package_names with
              | .error e => .error e
              | .ok none => .error .valueError
              | .ok (some a) => .ok (backtrack st2 a)
          | .ok (st1, _, some w) =>
              if has_assignment st1 package_name then
                match get_assignment st1 package_name with
                | some a =>
                    if av_ne a.version w then .ok (backtrack st1 a)
                    else .error .assertionError
                | none => .error .assertionError
              else add_assignment repo st1 ⟨package_name, w, false⟩

/-- The solver loop with explicit fuel (the source loops until the solution
is complete or an exception escapes). -/
def solve_loop (repo : Repo) : Nat → State → Except RunErr (List (String × String))
  | 0, _ => .error .fuelExhausted
  | fuel + 1, st =>
      if solution_is_complete st then .ok (get_current_solution st)
      else
        match step_body repo st with
        | .error e => .error e
        | .ok st1 => solve_loop repo fuel st1

/-- `solve_dependencies(root_dependencies, package_repository)`. -/
def solve_dependencies (root_dependencies : List Requirement) (repo : Repo)
    (fuel : Nat) : Except RunErr (List (String × String)) :=
  solve_loop repo fuel (add_root_dependencies root_dependencies)

/-- Iterated `step_body`, exposing the intermediate search states of a run. -/
def iterate_steps (repo : Repo) : Nat → State → Except RunErr State
  | 0, st => .ok st
  | fuel + 1, st =>
      match step_body repo st with
      | .error e => .error e
      | .ok st1 => iterate_steps repo fuel st1

/-- `_simplify_clause` (defined in `solver5.py` but never called by the
solver loop): group the clause's terms by package in first-occurrence
order; a package with several terms is replaced by a single term whose
version set is the union of the terms' sets (`verpy.union`, i.e. an
`OrOperator`; the groups in the runs below have at most two terms, matching
the binary operator used here). -/
def simplify_clause (c : Clause) : Clause :=
  let names := c.get_package_names
  ⟨names.map (fun p =>
      match c.terms.filter (fun t => t.requirement.package_name == p) with
      | [t] => t
      | ts =>
          ⟨⟨p, match ts.map (fun t => t.requirement.version_set) with
               | [] => VersionSet.AnySpecifier -- unreachable: the package came from a term
               | s :: rest => rest.foldl VersionSet.OrOperator s⟩⟩),
   .noCause⟩

/-! ## Scenario inputs

The two solver scenarios named by the claims, as `DictRepository` contents:
requirement strings are parsed (`"bar 1.0"` is `== 1.0`, `"bar >=1.0"` is
`>= 1.0`, `"bar >=1.0 & <2.0"` an `AndOperator`), and `get_versions`
returns the versions in descending order as `sorted(..., reverse=True)`
does. -/

/-- The parsed version `"1.0"`. -/
def ver10 : Version := ⟨[.NumericComponent [1, 0]], some "1.0"⟩

/-- The parsed version `"2.0"`. -/
def ver20 : Version := ⟨[.NumericComponent [2, 0]], some "2.0"⟩

/-- Dictionary lookup of a version key (`hash` plus `__eq__`, i.e. version
comparison). -/
def vmatch (v w : Version) : Bool :=
  compare_versions v.components w.components == 0

/-- The requirement set `>=1.0 & <2.0`. -/
def set_1le_lt2 : VersionSet :=
  .AndOperator (.GtEqSpecifier (.ver ver10)) (.LtSpecifier (.ver ver20))

/-- Scenario 1 of the specification (simple resolution):
`foo 1.0 → [bar >=1.0 & <2.0]; bar 1.0 → [baz 1.0]; bar 2.0 → [taz 2.0];
baz 1.0 → []; taz 2.0 → []`. -/
def repo1 : Repo where
  get_versions n :=
    if n = "foo" then some [ver10]
    else if n = "bar" then some [ver20, ver10]
    else if n = "baz" then some [ver10]
    else if n = "taz" then some [ver20]
    else none
  get_dependencies n v :=
    if n = "foo" then
      if vmatch v ver10 then some [⟨"bar", set_1le_lt2⟩] else none
    else if n = "bar" then
      if vmatch v ver20 then some [⟨"taz", .EqSpecifier (.ver ver20)⟩]
      else if vmatch v ver10 then some [⟨"baz", .EqSpecifier (.ver ver10)⟩]
      else none
    else if n = "baz" then
      if vmatch v ver10 then some [] else none
    else if n = "taz" then
      if vmatch v ver20 then some [] else none
    else none

/-- Scenario 1 root requirements: `bar>=1.0`, `foo>=1.0 & <2.0`. -/
def roots1 : List Requirement :=
  [⟨"bar", .GtEqSpecifier (.ver ver10)⟩, ⟨"foo", set_1le_lt2⟩]

/-- Scenario 4 of the specification (unresolvable):
`foo 1.0 → [bar 1.0]; bar 2.0 → [foo 1.0]`. -/
def repo4 : Repo where
  get_versions n :=
    if n = "foo" then some [ver10]
    else if n = "bar" then some [ver20]
    else none
  get_dependencies n v :=
    if n = "foo" then
      if vmatch v ver10 then some [⟨"bar", .EqSpecifier (.ver ver10)⟩] else none
    else if n = "bar" then
      if vmatch v ver20 then some [⟨"foo", .EqSpecifier (.ver ver10)⟩] else none
    else none

/-- Scenario 4 root requirements: `bar>=1.0`. -/
def roots4 : List Requirement := [⟨"bar", .GtEqSpecifier (.ver ver10)⟩]

/-! ## Auxiliary lemmas -/

/-- Padding to a length not exceeding the list's own length is the
identity. -/
lemma pad_components_self (cs : List Component) :
    pad_components cs cs.length = cs := by
  simp [pad_components]

/-- For component lists of equal length `compare_versions` is the plain
position-wise comparison and no padding happens. -/
lemma compare_versions_of_length_eq {cs ds : List Component}
    (h : cs.length = ds.length) :
    compare_versions cs ds = cmp_component_lists cs ds := by
  have h1 : max cs.length ds.length = cs.length := by omega
  simp only [compare_versions, compare_versions_m, h1]
  rw [pad_components_self, show cs.length = ds.length from h, pad_components_self]

/-- Element-wise comparison of equal-length integer lists returns 0 only on
equal lists. -/
lemma cmp_items_eq_zero : ∀ {x y : List Nat},
    x.length = y.length → cmp_items x y = 0 → x = y
  | [], [], _, _ => rfl
  | a :: as_, b :: bs, hl, h => by
      simp only [cmp_items] at h
      split at h
      · exact absurd h (by decide)
      · split at h
        · exact absurd h (by decide)
        · have hab : a = b := by omega
          have : as_ = bs :=
            cmp_items_eq_zero (by simpa using hl) h
          simp [hab, this]

/-- Appending zeros does not change the leading-nonzero prefix. -/
lemma takeWhile_append_zeros (x : List Nat) (k : Nat) :
    (x ++ List.replicate k 0).takeWhile (· != 0) = x.takeWhile (· != 0) := by
  induction x with
  | nil =>
      simp only [List.nil_append, List.takeWhile_nil]
      cases k with
      | zero => rfl
      | succ k => simp [List.replicate_succ, List.takeWhile_cons]
  | cons a as_ ih =>
      by_cases ha : a = 0
      · simp [ha, List.takeWhile_cons]
      · simp [List.takeWhile_cons, ha, ih]

/-- Two numeric components comparing equal have the same normalized
representation. -/
lemma cmp_numeric_eq_zero {a b : List Nat} (h : cmp_numeric a b = 0) :
    a.takeWhile (· != 0) = b.takeWhile (· != 0) := by
  simp only [cmp_numeric] at h
  have hp := cmp_items_eq_zero (x := a ++ List.replicate (max a.length b.length - a.length) 0)
    (y := b ++ List.replicate (max a.length b.length - b.length) 0)
    (by simp only [List.length_append, List.length_replicate]; omega) h
  calc a.takeWhile (· != 0)
      = (a ++ List.replicate (max a.length b.length - a.length) 0).takeWhile (· != 0) :=
        (takeWhile_append_zeros a _).symm
    _ = (b ++ List.replicate (max a.length b.length - b.length) 0).takeWhile (· != 0) := by
        rw [hp]
    _ = b.takeWhile (· != 0) := takeWhile_append_zeros b _

/-- A zero result of the list comparison decomposes head and tail. -/
lemma cmp_component_lists_cons_zero {c d : Component} {cs ds : List Component}
    (h : cmp_component_lists (c :: cs) (d :: ds) = 0) :
    compare_version_components c d = 0 ∧ cmp_component_lists cs ds = 0 := by
  simp only [cmp_component_lists] at h
  split at h
  · exact absurd h (by assumption)
  · exact ⟨by omega, h⟩

/-- Position-wise token agreement of two component lists: the same length,
and at each position either both components numeric or both alphabetic with
the same lower-cased token. -/
def tokens_aligned : List Component → List Component → Bool
  | [], [] => true
  | .NumericComponent _ :: xs, .NumericComponent _ :: ys => tokens_aligned xs ys
  | .StringComponent s :: xs, .StringComponent t :: ys =>
      py_lower s == py_lower t && tokens_aligned xs ys
  | _, _ => false

/-- Token-aligned component lists have equal length. -/
lemma tokens_aligned_length : ∀ {cs ds : List Component},
    tokens_aligned cs ds = true → cs.length = ds.length
  | [], [], _ => rfl
  | .NumericComponent _ :: _, .NumericComponent _ :: _, h => by
      simpa using tokens_aligned_length (by simpa [tokens_aligned] using h)
  | .StringComponent _ :: _, .StringComponent _ :: _, h => by
      simp only [tokens_aligned, Bool.and_eq_true] at h
      simpa using tokens_aligned_length h.2
  | [], .NumericComponent _ :: _, h => by simp [tokens_aligned] at h
  | [], .StringComponent _ :: _, h => by simp [tokens_aligned] at h
  | [], .NullComponent :: _, h => by simp [tokens_aligned] at h
  | .NumericComponent _ :: _, [], h => by simp [tokens_aligned] at h
  | .StringComponent _ :: _, [], h => by simp [tokens_aligned] at h
  | .NullComponent :: _, _, h => by simp [tokens_aligned] at h
  | .NumericComponent _ :: _, .StringComponent _ :: _, h => by simp [tokens_aligned] at h
  | .NumericComponent _ :: _, .NullComponent :: _, h => by simp [tokens_aligned] at h
  | .StringComponent _ :: _, .NumericComponent _ :: _, h => by simp [tokens_aligned] at h
  | .StringComponent _ :: _, .NullComponent :: _, h => by simp [tokens_aligned] at h

/-- Token-aligned component lists that compare position-wise equal have the
same normalized hash. -/
lemma comps_hash_eq_of_aligned : ∀ {cs ds : List Component},
    tokens_aligned cs ds = true → cmp_component_lists cs ds = 0 →
    comps_hash cs = comps_hash ds
  | [], [], _, _ => rfl
  | .NumericComponent x :: cs, .NumericComponent y :: ds, ha, hc => by
      have ha2 : tokens_aligned cs ds = true := by simpa [tokens_aligned] using ha
      obtain ⟨h1, h2⟩ := cmp_component_lists_cons_zero hc
      have hx : x.takeWhile (· != 0) = y.takeWhile (· != 0) :=
        cmp_numeric_eq_zero (by simpa [compare_version_components] using h1)
      have ih := comps_hash_eq_of_aligned ha2 h2
      simp [comps_hash, normalized_representation, hx, ih]
  | .StringComponent s :: cs, .StringComponent t :: ds, ha, hc => by
      simp only [tokens_aligned, Bool.and_eq_true, beq_iff_eq] at ha
      obtain ⟨h1, h2⟩ := cmp_component_lists_cons_zero hc
      have ih := comps_hash_eq_of_aligned ha.2 h2
      simp [comps_hash, normalized_representation, ha.1, ih]
  | [], .NumericComponent _ :: _, ha, _ => by simp [tokens_aligned] at ha
  | [], .StringComponent _ :: _, ha, _ => by simp [tokens_aligned] at ha
  | [], .NullComponent :: _, ha, _ => by simp [tokens_aligned] at ha
  | .NumericComponent _ :: _, [], ha, _ => by simp [tokens_aligned] at ha
  | .StringComponent _ :: _, [], ha, _ => by simp [tokens_aligned] at ha
  | .NullComponent :: _, _, ha, _ => by simp [tokens_aligned] at ha
  | .NumericComponent _ :: _, .StringComponent _ :: _, ha, _ => by simp [tokens_aligned] at ha
  | .NumericComponent _ :: _, .NullComponent :: _, ha, _ => by simp [tokens_aligned] at ha
  | .StringComponent _ :: _, .NumericComponent _ :: _, ha, _ => by simp [tokens_aligned] at ha
  | .StringComponent _ :: _, .NullComponent :: _, ha, _ => by simp [tokens_aligned] at ha

/-- The parsed version `"1.0-ga"`. -/
def ver10_ga : Version :=
  ⟨[.NumericComponent [1, 0], .StringComponent "ga"], some "1.0-ga"⟩

/-- The parsed version `"1.0-final"`. -/
def ver10_final : Version :=
  ⟨[.NumericComponent [1, 0], .StringComponent "final"], some "1.0-final"⟩

/-- The parsed version `"1.0-SNAPSHOT"`. -/
def ver10_snapshot : Version :=
  ⟨[.NumericComponent [1, 0], .StringComponent "SNAPSHOT"], some "1.0-SNAPSHOT"⟩

/-- The parsed version `"1-SNAPSHOT"`. -/
def ver1_snapshot : Version :=
  ⟨[.NumericComponent [1], .StringComponent "SNAPSHOT"], some "1-SNAPSHOT"⟩

/-! ## Claim C4 — version equality versus hashing -/

/-- C4, counterexample: `"1.0-ga"` and `"1.0-final"` compare EQUAL (their
qualifier tokens share table rank 6) yet their hashes differ, because the
normalized representation keeps the token itself, not its rank.  So
equality does not imply equal hash, contrary to the claim (which names this
very pair as hash-equal). -/
theorem c4_eq_hash_counterexample :
    compare_versions ver10_ga.components ver10_final.components = EQUAL ∧
    version_hash ver10_ga ≠ version_hash ver10_final := by
  constructor
  · decide
  · decide

/-- C4, amended: version equality implies equal hash only when the two
component lists agree token-wise — equal length and, position by position,
either both numeric or both alphabetic with the same lower-cased token
(e.g. `"1.0-SNAPSHOT"` and `"1-SNAPSHOT"`).  For equal versions whose
alphabetic tokens differ (possible exactly for distinct same-rank qualifier
tokens such as `ga`/`final`), the hashes differ. -/
theorem c4_eq_hash_amended (a b : Version)
    (hal : tokens_aligned a.components b.components = true)
    (heq : compare_versions a.components b.components = EQUAL) :
    version_hash a = version_hash b := by
  have hlen := tokens_aligned_length hal
  have hc : cmp_component_lists a.components b.components = 0 := by
    rw [compare_versions_of_length_eq hlen] at heq
    exact heq
  exact comps_hash_eq_of_aligned hal hc

/-- C4, witness: the amended theorem applied to `"1.0-SNAPSHOT"` and
`"1-SNAPSHOT"` (the repository's own normalization example). -/
theorem c4_eq_hash_amended_witness :
    tokens_aligned ver10_snapshot.components ver1_snapshot.components = true ∧
    compare_versions ver10_snapshot.components ver1_snapshot.components = EQUAL ∧
    version_hash ver10_snapshot = version_hash ver1_snapshot :=
  ⟨by decide, by decide, c4_eq_hash_amended ver10_snapshot ver1_snapshot (by decide) (by decide)⟩

/-! ## Claim C5 — one token in the qualifier table -/

/-- C5, counterexample: `"alpha"` has table rank 0 (below the `""` slot's
rank 4), so by the claim it should compare LESSER than any out-of-table
token such as `"zebra"`; the code returns GREATER — the in-table token wins
regardless of its rank. -/
theorem c5_table_vs_outside_counterexample :
    compare_version_components (.StringComponent "alpha") (.StringComponent "zebra") =
      GREATER ∧
    compare_version_components (.StringComponent "alpha") (.StringComponent "zebra") ≠
      LESSER := by
  constructor
  · decide
  · decide

/-- C5, amended: when exactly one of two alphabetic tokens appears in the
qualifier ordering table, the in-table token compares GREATER and the
out-of-table token LESSER, regardless of the in-table token's rank.  (The
rank-relative-to-`""` rule applies only when a token is compared against
the null padding component, in `compare_component_with_null`.) -/
theorem c5_table_vs_outside_amended (s t : String)
    (hs : (qual_rank (py_lower s)).isSome = true)
    (ht : qual_rank (py_lower t) = none) :
    compare_version_components (.StringComponent s) (.StringComponent t) = GREATER ∧
    compare_version_components (.StringComponent t) (.StringComponent s) = LESSER := by
  obtain ⟨r, hr⟩ := Option.isSome_iff_exists.mp hs
  constructor <;> simp [compare_version_components, cmp_strings, hr, ht]

/-- C5, witness: the amended theorem at the in-table token `"alpha"`
(rank 0) and the out-of-table token `"zebra"`. -/
theorem c5_table_vs_outside_amended_witness :
    (qual_rank (py_lower "alpha")).isSome = true ∧
    qual_rank (py_lower "zebra") = none ∧
    compare_version_components (.StringComponent "alpha") (.StringComponent "zebra") = GREATER ∧
    compare_version_components (.StringComponent "zebra") (.StringComponent "alpha") = LESSER :=
  ⟨by decide, by decide,
   c5_table_vs_outside_amended "alpha" "zebra" (by decide) (by decide)⟩

/-! ## Claim C9 — `difference` is the complement of the intersection -/

/-- The parsed version `"3.0"`. -/
def ver30 : Version := ⟨[.NumericComponent [3, 0]], some "3.0"⟩

/-- The parsed version `"4.0"`. -/
def ver40 : Version := ⟨[.NumericComponent [4, 0]], some "4.0"⟩

/-- C9, confirmed: `a.difference(b)` builds
`NotOperator(AndOperator(a, b))`, so a version is contained in it exactly
when it is not in both `a` and `b` — the complement of the intersection,
not the set difference.  In particular `4.0`, which is outside
`a = lteq(3.0)` altogether, is contained in `a.difference(gt(2.0))`. -/
theorem c9_difference_complement_of_intersection :
    (∀ (a b : VersionSet) (v : AssignVersion),
        (a.difference b).contains v = !(a.contains v && b.contains v)) ∧
    ((VersionSet.LtEqSpecifier (.ver ver30)).difference
        (.GtSpecifier (.ver ver20))).contains (.ver ver40) = true := by
  constructor
  · intro a b v
    rfl
  · decide

/-! ## Claim C10 — `compare_versions` mutates its inputs -/

/-- The component list of a parsed one-component version (`"1.0"`). -/
def comps_short : List Component := [.NumericComponent [1, 0]]

/-- The component list of a parsed two-component version (`"2.0-a"`). -/
def comps_long : List Component := [.NumericComponent [2, 0], .StringComponent "a"]

/-- C10, counterexample: comparing component lists of lengths 1 and 2, the
padding is appended to the shorter list only — the longer list is left
exactly as it was, refuting the claim's "both Version objects are
permanently modified".  The padded shorter list does hash to an error
(`NullComponent` has no `normalized_representation`). -/
theorem c10_mutation_counterexample :
    (compare_versions_m comps_short comps_long).2.2 = comps_long ∧
    (compare_versions_m comps_short comps_long).2.1 =
      comps_short ++ [.NullComponent] ∧
    comps_hash (compare_versions_m comps_short comps_long).2.1 = none := by
  refine ⟨?_, ?_, ?_⟩ <;> decide

/-- A component list containing a `NullComponent` has no hash (Python
raises `AttributeError`). -/
lemma comps_hash_of_mem_null : ∀ {cs : List Component},
    Component.NullComponent ∈ cs → comps_hash cs = none
  | c :: cs, h => by
      rcases List.mem_cons.mp h with h1 | h1
      · simp [comps_hash, ← h1, normalized_representation]
      · have := comps_hash_of_mem_null h1
        cases c with
        | NumericComponent items => simp [comps_hash, normalized_representation, this]
        | StringComponent s => simp [comps_hash, normalized_representation, this]
        | NullComponent => simp [comps_hash, normalized_representation]

/-- C10, amended: whenever the first component list is strictly shorter,
`compare_versions` appends `NullComponent` padding in place to the shorter
list only, leaves the longer operand unmodified, and hashing the padded
`Version` afterwards raises (its hash is `none`). -/
theorem c10_mutation_amended (a b : List Component) (h : a.length < b.length) :
    (compare_versions_m a b).2.1 =
      a ++ List.replicate (b.length - a.length) .NullComponent ∧
    (compare_versions_m a b).2.2 = b ∧
    comps_hash (compare_versions_m a b).2.1 = none := by
  have hmax : max a.length b.length = b.length := by omega
  have h1 : (compare_versions_m a b).2.1 =
      a ++ List.replicate (b.length - a.length) .NullComponent := by
    simp [compare_versions_m, pad_components, hmax]
  refine ⟨h1, ?_, ?_⟩
  · simp [compare_versions_m, pad_components, hmax]
  · rw [h1]
    refine comps_hash_of_mem_null (List.mem_append_right _ ?_)
    rw [List.mem_replicate]
    constructor
    · omega
    · rfl

/-- C10, witness: the amended theorem applied to the concrete lists of
lengths 1 and 2. -/
theorem c10_mutation_amended_witness :
    comps_short.length < comps_long.length ∧
    ((compare_versions_m comps_short comps_long).2.1 =
        comps_short ++ List.replicate (comps_long.length - comps_short.length)
          .NullComponent ∧
      (compare_versions_m comps_short comps_long).2.2 = comps_long ∧
      comps_hash (compare_versions_m comps_short comps_long).2.1 = none) :=
  ⟨by decide, c10_mutation_amended comps_short comps_long (by decide)⟩

/-! ## Claim C6 — `Term.truth_value` on a Null assignment -/

/-- C6, counterexample: `solver5.Term.truth_value` has no special branch
for the Null sentinel — it computes plain membership of the version
`"none"` in the term's version set.  For the positive-polarity term
`bar < 2.0` and the assignment `bar = Null`, membership of the alphabetic
version `"none"` in `lt(2.0)` is true (alphabetic < numeric), where the
claim requires `false` for every positive term. -/
theorem c6_null_truth_counterexample :
    Term.truth_value ⟨⟨"bar", .LtSpecifier (.ver ver20)⟩⟩
      [⟨"bar", .ver ver_none, false⟩] = some true := by
  decide

/-- The sentinel compares LESSER than any version starting with a numeric
component (numeric beats alphabetic at the first position). -/
lemma compare_none_vs_numeric (items : List Nat) (rest : List Component) :
    compare_versions ver_none.components (.NumericComponent items :: rest) =
      LESSER := by
  have hmax : max ([Component.StringComponent "none"].length)
      ((Component.NumericComponent items :: rest).length) = rest.length + 1 := by
    simp
  simp [ver_none, compare_versions, compare_versions_m, pad_components, hmax,
    cmp_component_lists, compare_version_components, LESSER, GREATER]

/-- Any version starting with a numeric component compares GREATER than the
sentinel. -/
lemma compare_numeric_vs_none (items : List Nat) (rest : List Component) :
    compare_versions (.NumericComponent items :: rest) ver_none.components =
      GREATER := by
  have hmax : max ((Component.NumericComponent items :: rest).length)
      ([Component.StringComponent "none"].length) = rest.length + 1 := by
    simp
  simp [ver_none, compare_versions, compare_versions_m, pad_components, hmax,
    cmp_component_lists, compare_version_components, LESSER, GREATER]

/-- C6, amended: with the package assigned the Null sentinel,
`Term.truth_value` returns the membership of the version `"none"` in the
term's version set.  For a version `v` whose first component is numeric
(every repository version here) this gives `false` for the positive term
`eq(v)` and `true` for the negated term `eq(v).complement()` — the two term
shapes the solver actually builds — but it depends on the version set: the
positive term `lt(v)` yields `true`. -/
theorem c6_null_truth_amended (name : String) (os : Option String)
    (items : List Nat) (rest : List Component) :
    (Term.truth_value ⟨⟨name, .EqSpecifier (.ver ⟨.NumericComponent items :: rest, os⟩)⟩⟩
        [⟨name, .ver ver_none, false⟩] = some false) ∧
    (Term.truth_value ⟨⟨name,
        .NotOperator (.EqSpecifier (.ver ⟨.NumericComponent items :: rest, os⟩))⟩⟩
        [⟨name, .ver ver_none, false⟩] = some true) ∧
    (Term.truth_value ⟨⟨name, .LtSpecifier (.ver ⟨.NumericComponent items :: rest, os⟩)⟩⟩
        [⟨name, .ver ver_none, false⟩] = some true) := by
  have hgt := compare_numeric_vs_none items rest
  have hlt := compare_none_vs_numeric items rest
  refine ⟨?_, ?_, ?_⟩ <;>
    simp [Term.truth_value, List.find?, VersionSet.contains, av_eq, av_lt,
      hgt, hlt, GREATER, LESSER]

/-! ## Solver helper lemmas -/

/-- The always-false membership test of `get_dependencies_assignments`. -/
lemma any_requirement_eq_assignment (l : List Assignment) (r : Requirement) :
    (l.any fun x => requirement_eq_assignment r x) = false := by
  induction l with
  | nil => rfl
  | cons a l ih => simp [List.any, requirement_eq_assignment, ih]

/-- The fold of `get_dependencies_assignments` never extends its
accumulator: the membership test in its condition is constantly false. -/
lemma gda_foldl_const (st : State) (a : Assignment) (cs : List Clause) :
    ∀ acc : List Assignment,
      cs.foldl (fun acc c =>
        match c.cause with
        | Cause.DependencyCause dependant dependency =>
            if assignment_hash_eq dependant a &&
               st.assignments.any (fun x => requirement_eq_assignment dependency x) then
              acc ++ [dependant]
            else acc
        | _ => acc) acc = acc := by
  induction cs with
  | nil => intro acc; rfl
  | cons c cs ih =>
      intro acc
      simp only [List.foldl_cons]
      have hstep : (match c.cause with
        | Cause.DependencyCause dependant dependency =>
            if assignment_hash_eq dependant a &&
               st.assignments.any (fun x => requirement_eq_assignment dependency x) then
              acc ++ [dependant]
            else acc
        | _ => acc) = acc := by
        cases hc : c.cause with
        | DependencyCause dependant dependency =>
            simp [any_requirement_eq_assignment]
        | noCause => rfl
        | IncompatibilityCause => rfl
      rw [hstep]
      exact ih acc

/-- `get_dependencies_assignments` always returns the empty list. -/
lemma get_dependencies_assignments_eq_nil (st : State) (a : Assignment) :
    get_dependencies_assignments st a = [] := by
  unfold get_dependencies_assignments
  exact gda_foldl_const st a st.clauses []

/-- `backtrack` removes exactly the first assignment equal (in the sense of
`Assignment.__eq__`) to its argument; its recursive cascade is inert and
the clause list and memo are untouched. -/
lemma backtrack_eq (st : State) (a : Assignment) :
    backtrack st a = { st with assignments := remove_first st.assignments a } := by
  simp [backtrack, backtrack_fuel, get_dependencies_assignments_eq_nil]

/-- `load_dependencies` only appends to the clause list. -/
lemma load_dependencies_mono {repo : Repo} {st : State} {a : Assignment}
    {st2 : State} (h : load_dependencies repo st a = .ok st2) :
    st.clauses <+: st2.clauses := by
  unfold load_dependencies at h
  split at h
  · split at h
    · split at h
      · exact absurd h (by simp)
      · cases h
        exact List.prefix_append _ _
    · exact absurd h (by simp)
  · cases h
    exact List.prefix_rfl

/-- `_try_assignment` only appends to the clause list. -/
lemma try_assignment_mono {repo : Repo} {st : State} {a : Assignment}
    {st2 : State} {violated : List Clause}
    (h : try_assignment repo st a = .ok (st2, violated)) :
    st.clauses <+: st2.clauses := by
  unfold try_assignment at h
  cases hl : load_dependencies repo st a with
  | error e => rw [hl] at h; exact absurd h (by simp)
  | ok st1 =>
      rw [hl] at h
      simp only [Except.ok.injEq, Prod.mk.injEq] at h
      rw [← h.1]
      exact load_dependencies_mono hl

/-- The candidate loop only appends to the clause list. -/
lemma candidate_loop_mono {repo : Repo} {package_name : String} :
    ∀ {vs : List AssignVersion} {st : State} {acc : List Clause}
      {out : State × List Clause × Option AssignVersion},
      candidate_loop repo package_name st acc vs = .ok out →
      st.clauses <+: out.1.clauses
  | [], st, acc, out, h => by
      cases h
      exact List.prefix_rfl
  | w :: rest, st, acc, out, h => by
      rw [candidate_loop] at h
      cases ht : try_assignment repo st ⟨package_name, w, false⟩ with
      | error e => rw [ht] at h; exact absurd h (by simp)
      | ok p =>
          obtain ⟨st1, violated⟩ := p
          rw [ht] at h
          by_cases he : violated.isEmpty
          · simp only [he, if_true] at h
            cases h
            exact try_assignment_mono ht
          · simp only [he, if_false] at h
            exact (try_assignment_mono ht).trans (candidate_loop_mono h)

/-- `add_assignment` only appends to the clause list. -/
lemma add_assignment_mono {repo : Repo} {st : State} {a : Assignment}
    {st2 : State} (h : add_assignment repo st a = .ok st2) :
    st.clauses <+: st2.clauses := by
  unfold add_assignment at h
  split at h
  · exact absurd h (by simp)
  · have h2 := load_dependencies_mono h
    exact h2

/-! ## Claim C2 — simple resolution -/

/-- C2, confirmed: on scenario 1 the solver returns exactly the map
`{foo: "1.0", bar: "1.0", baz: "1.0"}` (listed in assignment order
`bar, foo, baz`); the root assignment and the Null assignment that `taz`
receives are excluded by `get_current_solution`. -/
theorem c2_simple_resolution_solution :
    solve_dependencies roots1 repo1 20 =
      .ok [("bar", "1.0"), ("foo", "1.0"), ("baz", "1.0")] ∧
    (solve_dependencies roots1 repo1 20).map (fun l => l.lookup "foo") =
      .ok (some "1.0") ∧
    (solve_dependencies roots1 repo1 20).map (fun l => l.lookup "taz") =
      .ok none ∧
    (solve_dependencies roots1 repo1 20).map (fun l => l.lookup "__root__") =
      .ok none := by
  refine ⟨?_, ?_, ?_, ?_⟩ <;> decide

/-! ## Claim C1 — behaviour on the unresolvable scenario -/

/-- C1: on the unresolvable scenario 4 the solver does not raise
`SolverError` — `solver5.py` defines the class but contains no `raise`
statement for it.  The run learns an incompatibility whose only package is
`__root__`, backtracks the root assignment away (there is no root guard),
then picks `__root__` as the next unassigned package and crashes in the
repository lookup with `KeyError("__root__")`. -/
theorem c1_unresolvable_keyerror_not_solvererror :
    solve_dependencies roots4 repo4 20 = .error (.keyError "__root__") ∧
    solve_dependencies roots4 repo4 20 ≠ .error .solverError := by
  refine ⟨?_, ?_⟩ <;> decide

/-! ## Claim C3 — the root assignment and `backtrack` -/

/-- C3, counterexample: in the scenario-4 run the root assignment is the
sole assignment after two solver steps, and the third step's backtrack
removes it, leaving the assignment list empty — `backtrack` does remove the
`RootAssignment` on a reachable state. -/
theorem c3_root_removed_counterexample :
    (iterate_steps repo4 2 (add_root_dependencies roots4)).map
        (fun st => st.assignments) = .ok [root_assignment] ∧
    (iterate_steps repo4 3 (add_root_dependencies roots4)).map
        (fun st => st.assignments) = .ok [] ∧
    (iterate_steps repo4 3 (add_root_dependencies roots4)).map
        (fun st => st.assignments.any (fun a => a.is_root)) = .ok false := by
  refine ⟨?_, ?_, ?_⟩ <;> decide

/-- C3, amended: `backtrack` has no root guard — on every state it removes
exactly the assignment it is given (the recursive cascade never fires
because `get_dependencies_assignments` compares a `Requirement` against
`Assignment`s and always comes back empty), leaving clauses and memo
untouched; in particular backtracking the root assignment removes it. -/
theorem c3_backtrack_no_root_guard :
    (∀ (st : State) (a : Assignment),
      backtrack st a =
        { st with assignments := remove_first st.assignments a }) ∧
    (backtrack ⟨[], [root_assignment], []⟩ root_assignment).assignments = [] := by
  constructor
  · exact backtrack_eq
  · rw [backtrack_eq]
    decide

/-! ## Claim C7 — shape of learned incompatibilities -/

/-- The incompatibility learned in the second step of the scenario-4 run:
the non-`foo` terms of the violated clauses `Dependency(bar 2.0, foo 1.0)`
and `Dependency(foo 1.0, bar 1.0)`, concatenated — two separate terms both
naming `bar`. -/
def inc_learned : Clause :=
  ⟨[⟨⟨"bar", .NotOperator (.EqSpecifier (.ver ver20))⟩⟩,
    ⟨⟨"bar", .EqSpecifier (.ver ver10)⟩⟩], .IncompatibilityCause⟩

/-- C7, counterexample: the incompatibility learned on step 2 of the
scenario-4 run carries two distinct terms for the single package `bar` —
the per-package merge by union the claim describes does not happen. -/
theorem c7_unmerged_incompatibility_counterexample :
    (iterate_steps repo4 2 (add_root_dependencies roots4)).map
        (fun st => st.clauses.getLast?) = .ok (some inc_learned) ∧
    inc_learned.terms.map (fun t => t.requirement.package_name) = ["bar", "bar"] ∧
    inc_learned.get_package_names = ["bar"] := by
  refine ⟨?_, ?_, ?_⟩ <;> decide

/-- C7, amended: a learned incompatibility's terms are the concatenation,
in encounter order, of the violated clauses' terms with the focus package's
terms dropped; terms naming the same package are left unmerged.  The merge
by union is implemented by the helper `_simplify_clause`, which the solver
loop never calls: applied to the learned clause it would produce the single
merged term the claim describes. -/
theorem c7_incompatibility_terms_amended :
    (iterate_steps repo4 2 (add_root_dependencies roots4)).map
        (fun st => st.clauses.getLast?) = .ok (some inc_learned) ∧
    inc_learned.terms =
      (Dependency ⟨"bar", .ver ver20, false⟩
          ⟨"foo", .EqSpecifier (.ver ver10)⟩).terms.filter
        (fun t => t.requirement.package_name != "foo") ++
      (Dependency ⟨"foo", .ver ver10, false⟩
          ⟨"bar", .EqSpecifier (.ver ver10)⟩).terms.filter
        (fun t => t.requirement.package_name != "foo") ∧
    (simplify_clause inc_learned).terms =
      [⟨⟨"bar", .OrOperator (.NotOperator (.EqSpecifier (.ver ver20)))
          (.EqSpecifier (.ver ver10))⟩⟩] := by
  refine ⟨?_, ?_, ?_⟩ <;> decide

/-! ## Claim C8 — Dependency clauses and their dependants -/

/-- The invariant asserted by the claim: every `Dependency` clause's
dependant is present (via `Assignment.__eq__`) in the current assignment
list. -/
def dependants_assigned (st : State) : Bool :=
  st.clauses.all (fun c =>
    match c.cause with
    | .DependencyCause dependant _ =>
        st.assignments.any (fun a => assignment_hash_eq a dependant)
    | _ => true)

/-- C8, counterexample: after the second step of the scenario-1 run the
clause `Dependency(bar 2.0, taz 2.0)` is still in the clause list (clauses
are never removed) but `bar 2.0` has just been backtracked — its dependant
is no longer assigned, refuting the claimed invariant. -/
theorem c8_dependant_unassigned_counterexample :
    (iterate_steps repo1 2 (add_root_dependencies roots1)).map
        dependants_assigned = .ok false ∧
    (iterate_steps repo1 2 (add_root_dependencies roots1)).map
        (fun st => st.clauses.get? 3) =
      .ok (some (Dependency ⟨"bar", .ver ver20, false⟩
        ⟨"taz", .EqSpecifier (.ver ver20)⟩)) ∧
    (iterate_steps repo1 2 (add_root_dependencies roots1)).map
        (fun st => has_assignment st "bar") = .ok false := by
  refine ⟨?_, ?_, ?_⟩ <;> decide

/-- C8, amended: what does hold after each solver step is clause
monotonicity — a step only appends to the clause list, so every Dependency
persists; but its dependant may be absent from the assignment list
(after a backtrack, or when the trial that loaded it failed). -/
theorem c8_clauses_monotone_amended (repo : Repo) (st : State) :
    (step_body repo st).toOption.elim True
      (fun st2 => st.clauses <+: st2.clauses) := by
  unfold step_body
  rcases hpkg : (get_unassigned_packages st).head? with _ | package_name
  · simp [hpkg, Except.toOption]
  · rcases hv : repo.get_versions package_name with _ | all_versions
    · simp [hpkg, hv, Except.toOption]
    · rcases hc : candidate_loop repo package_name st []
          (.ver ver_none :: all_versions.map .ver) with e | ⟨st1, all_violated, ch⟩
      · simp [hpkg, hv, hc, Except.toOption]
      · have hpre1 : st.clauses <+: st1.clauses := candidate_loop_mono hc
        rcases ch with _ | w
        · -- no candidate fits: learn an incompatibility, then backtrack
          simp only [hpkg, hv, hc]
          split
          · simp [Except.toOption]
          · simp [Except.toOption]
          · simp only [Except.toOption, Option.elim]
            rw [backtrack_eq]
            exact hpre1.trans (List.prefix_append _ _)
        · -- a candidate fits
          simp only [hpkg, hv, hc]
          split
          · split
            · split
              · simp only [Except.toOption, Option.elim]
                rw [backtrack_eq]
                exact hpre1
              · simp [Except.toOption]
            · simp [Except.toOption]
          · rcases ha : add_assignment repo st1 ⟨package_name, w, false⟩ with e | st2
            · simp [ha, Except.toOption]
            · simp only [ha, Except.toOption, Option.elim]
              exact hpre1.trans (add_assignment_mono ha)

end Verpy
